import Mathlib

/-!
Verification of the isometric-room pathfinding core (A* search over a
height-varying grid with stackable obstacles).

The embedding models the Pathfinder variant built on `Tilemap` and
`CubeCollection`, together with the helpers it calls:
`isValidTilePosition`, `cartesianToIsometric`, `findTallestCubeAt`,
`findTileByExactPosition`, and the `Node` bookkeeping type.

Modelling decisions:
  * JavaScript numbers are modelled exactly on the rational subset, with
    explicit `nan`, `undef` (the `undefined` value, which participates in
    `===` and coerces to NaN in arithmetic) and the two infinities
    (`JSNum`).  The grid and cube data of this program are small integer
    quantities on which IEEE doubles are exact.
  * Cost values (gCost/hCost/fCost) involve `Math.sqrt(2)` and Euclidean
    distances; they are kept as symbolic expressions (`CostExpr`) and the
    program's float comparisons on them are abstracted as an arbitrary
    pair of Boolean comparison functions (`CostModel`).  All search
    theorems are proved for every such comparison model, which in
    particular covers the comparisons actually performed on doubles.
  * The third-party binary heap (heap-js) is modelled as a list whose
    `pop` extracts the (leftmost) minimal element with respect to the
    comparison model; the search theorems never depend on which element
    is popped.
  * The search loop is defined with an explicit fuel parameter; a fuel
    bound computed from the grid is proved sufficient.
-/

-- Core `Rat` arithmetic is marked irreducible, which blocks `decide`
-- from evaluating the executable definitions below on concrete inputs;
-- restore the (kernel-sound) reducibility of those operations.
set_option allowUnsafeReducibility true
attribute [semireducible] Rat.add Rat.sub Rat.mul Rat.neg Rat.div Rat.inv
  Rat.normalize Rat.maybeNormalize

namespace IsoRoom

/-- Model of a JavaScript number as it occurs in this program: an exact
rational, one of the two infinities, `NaN`, or the `undefined` value
(which can flow into `Point3D.z` through unchecked array access). -/
inductive JSNum where
  | num (q : ℚ)
  | posInf
  | negInf
  | nan
  | undef
deriving DecidableEq, Repr

/-- JavaScript strict equality `===` on numbers-or-undefined:
`NaN === NaN` is false, `undefined === undefined` is true. -/
def jsEqq : JSNum → JSNum → Bool
  | .num a, .num b => decide (a = b)
  | .posInf, .posInf => true
  | .negInf, .negInf => true
  | .undef, .undef => true
  | _, _ => false

/-- JavaScript `<`: any comparison involving NaN (or `undefined`, which
coerces to NaN) is false. -/
def jsLt : JSNum → JSNum → Bool
  | .num a, .num b => decide (a < b)
  | .num _, .posInf => true
  | .negInf, .num _ => true
  | .negInf, .posInf => true
  | _, _ => false

/-- JavaScript `<=`: false whenever NaN or `undefined` is involved. -/
def jsLe : JSNum → JSNum → Bool
  | .num a, .num b => decide (a ≤ b)
  | .num _, .posInf => true
  | .negInf, .num _ => true
  | .negInf, .negInf => true
  | .negInf, .posInf => true
  | .posInf, .posInf => true
  | _, _ => false

/-- JavaScript `>` (`a > b` is `b < a`). -/
def jsGt (a b : JSNum) : Bool := jsLt b a

/-- JavaScript `>=` (`a >= b` is `b <= a`, false under NaN). -/
def jsGe (a b : JSNum) : Bool := jsLe b a

/-- JavaScript unary minus. -/
def jsNeg : JSNum → JSNum
  | .num a => .num (-a)
  | .posInf => .negInf
  | .negInf => .posInf
  | _ => .nan

/-- JavaScript addition; `undefined` coerces to NaN, `∞ + (−∞)` is NaN. -/
def jsAdd : JSNum → JSNum → JSNum
  | .num a, .num b => .num (a + b)
  | .num _, .posInf => .posInf
  | .posInf, .num _ => .posInf
  | .num _, .negInf => .negInf
  | .negInf, .num _ => .negInf
  | .posInf, .posInf => .posInf
  | .negInf, .negInf => .negInf
  | _, _ => .nan

/-- JavaScript subtraction, `a - b = a + (-b)`. -/
def jsSub (a b : JSNum) : JSNum := jsAdd a (jsNeg b)

/-- JavaScript multiplication with the IEEE sign/NaN rules. -/
def jsMul : JSNum → JSNum → JSNum
  | .num a, .num b => .num (a * b)
  | .num a, .posInf => if 0 < a then .posInf else if a < 0 then .negInf else .nan
  | .num a, .negInf => if 0 < a then .negInf else if a < 0 then .posInf else .nan
  | .posInf, .num b => if 0 < b then .posInf else if b < 0 then .negInf else .nan
  | .negInf, .num b => if 0 < b then .negInf else if b < 0 then .posInf else .nan
  | .posInf, .posInf => .posInf
  | .posInf, .negInf => .negInf
  | .negInf, .posInf => .negInf
  | .negInf, .negInf => .posInf
  | _, _ => .nan

/-- `Math.abs`. -/
def jsAbs : JSNum → JSNum
  | .num a => .num |a|
  | .posInf => .posInf
  | .negInf => .posInf
  | _ => .nan

/-- Binary `Math.max` (NaN-propagating); folding it over a list from
`-Infinity` models the spread call `Math.max(...xs)`. -/
def jsMax : JSNum → JSNum → JSNum
  | .nan, _ => .nan
  | .undef, _ => .nan
  | _, .nan => .nan
  | _, .undef => .nan
  | .posInf, _ => .posInf
  | _, .posInf => .posInf
  | .negInf, b => b
  | a, .negInf => a
  | .num a, .num b => .num (max a b)

/-- `Point3D`: three JavaScript-number components. -/
structure Point3D where
  x : JSNum
  y : JSNum
  z : JSNum
deriving DecidableEq, Repr

/-- `Point3D.equals`: component-wise `===`. -/
def equalsB (p q : Point3D) : Bool :=
  jsEqq p.x q.x && jsEqq p.y q.y && jsEqq p.z q.z

/-- The grid passed to `Tilemap`: a jagged 2D array of numeric elevations
(`-1` marks an absent tile). -/
abbrev Grid : Type := List (List ℚ)

/-- JavaScript array indexing `l[i]`: yields an element only for an
integral index within range, else the property is absent. -/
def listIdx? {α : Type} (l : List α) (i : JSNum) : Option α :=
  match i with
  | .num q =>
      if h : q.den = 1 ∧ 0 ≤ q.num ∧ q.num.toNat < l.length then
        some (l.get ⟨q.num.toNat, h.2.2⟩)
      else none
  | _ => none

/-- The optional-chain lookup `grid[x]?.[y]` (evaluates to `undefined`
when the row or the cell is missing). -/
def gridLookup (grid : Grid) (x y : JSNum) : JSNum :=
  match listIdx? grid x with
  | none => .undef
  | some row =>
    match listIdx? row y with
    | none => .undef
    | some q => .num q

/-- `TILE_DIMENSIONS` from the tile constants module. -/
structure TileDimensions where
  WIDTH : ℚ
  HEIGHT : ℚ
  THICKNESS : ℚ

def TILE_DIMENSIONS : TileDimensions := ⟨64, 32, 5⟩

/-- `AVATAR_DIMENSIONS` from the avatar constants module. -/
structure AvatarDimensions where
  WIDTH : ℚ
  HEIGHT : ℚ

def AVATAR_DIMENSIONS : AvatarDimensions := ⟨20, 60⟩

/-- `cartesianToIsometric` from the coordinate transformations module. -/
def cartesianToIsometric (position : Point3D) : Point3D :=
  ⟨jsMul (jsSub position.x position.y) (.num (TILE_DIMENSIONS.WIDTH / 2)),
   jsMul (jsAdd position.x position.y) (.num (TILE_DIMENSIONS.HEIGHT / 2)),
   jsMul position.z (.num TILE_DIMENSIONS.HEIGHT)⟩

/-- `Math.max(...grid.map(row => row.length))`: `-Infinity` on an empty
grid. -/
def maxRowLenJS (grid : Grid) : JSNum :=
  grid.foldl (fun acc row => jsMax acc (.num (row.length : ℚ))) .negInf

/-- `isTilePositionInBounds` from the tile-position helpers. -/
def isTilePositionInBounds (position : Point3D) (grid : Grid) : Bool :=
  let maxX : JSNum := .num ((grid.length : ℚ) - 1)
  let maxY : JSNum := jsSub (maxRowLenJS grid) (.num 1)
  jsGe position.x (.num 0) && jsGe position.y (.num 0) &&
    jsLe position.x maxX && jsLe position.y maxY

/-- `isValidTilePosition` from the tile-position helpers: in bounds, and
`grid[x]?.[y] !== -1 && grid[x]?.[y] === z`. -/
def isValidTilePosition (position : Point3D) (grid : Grid) : Bool :=
  if !isTilePositionInBounds position grid then false
  else
    let tileHeight := gridLookup grid position.x position.y
    !jsEqq tileHeight (.num (-1)) && jsEqq tileHeight position.z

/-- A cube (obstacle).  `currentTile` holds the (isometric) position of
the tile the cube currently occupies, when it has one. -/
structure Cube where
  position : Point3D
  size : JSNum
  currentTile : Option Point3D
deriving DecidableEq, Repr

/-- One step of the `reduce` inside `CubeCollection.findTallestCubeAt`. -/
def tallestStep (position : Point3D) (currentTallest : Option Cube) (cube : Cube) :
    Option Cube :=
  let isAtPosition : Bool :=
    match cube.currentTile with
    | some t => equalsB t position
    | none => false
  let prevZ : JSNum :=
    match currentTallest with
    | some c => c.position.z
    | none => .negInf
  let isTaller := jsGt cube.position.z prevZ
  if isAtPosition && isTaller then some cube else currentTallest

/-- `CubeCollection.findTallestCubeAt`. -/
def findTallestCubeAt (cubes : List Cube) (position : Point3D) : Option Cube :=
  cubes.foldl (tallestStep position) none

/-- The tile positions created by `Tilemap.generate`: the isometric
position of every grid cell whose elevation is not `-1`. -/
def tilePositions (grid : Grid) : List Point3D :=
  grid.enum.flatMap fun xr =>
    xr.2.enum.filterMap fun yz =>
      if yz.2 = -1 then none
      else some (cartesianToIsometric ⟨.num (xr.1 : ℚ), .num (yz.1 : ℚ), .num yz.2⟩)

/-- `Tilemap.findTileByExactPosition` (a tile is identified by its
isometric position, the only field the pathfinder reads). -/
def findTileByExactPosition (grid : Grid) (position : Point3D) : Option Point3D :=
  (tilePositions grid).find? fun t => equalsB t position

/-- Symbolic cost value: the float costs the pathfinder manipulates are
built from rational literals, `Math.sqrt(2)`, Euclidean distances, `+`
and `*`. -/
inductive CostExpr where
  | lit (q : ℚ)
  | sqrtTwo
  | dist (p q : Point3D)
  | add (a b : CostExpr)
  | mul (a b : CostExpr)
deriving DecidableEq, Repr

/-- The pathfinding `Node`: position, gCost, hCost, fCost, parent link
and resolved height.  A fresh node has all costs `0`, no parent and
height `0`. -/
inductive Node where
  | mk (position : Point3D) (gCost hCost fCost : CostExpr)
      (parent : Option Node) (height : JSNum)
deriving Repr

def Node.position : Node → Point3D
  | .mk p _ _ _ _ _ => p

def Node.gCost : Node → CostExpr
  | .mk _ g _ _ _ _ => g

def Node.hCost : Node → CostExpr
  | .mk _ _ h _ _ _ => h

def Node.fCost : Node → CostExpr
  | .mk _ _ _ f _ _ => f

def Node.parent : Node → Option Node
  | .mk _ _ _ _ pa _ => pa

def Node.height : Node → JSNum
  | .mk _ _ _ _ _ ht => ht

def Node.setGCost : Node → CostExpr → Node
  | .mk p _ h f pa ht, g => .mk p g h f pa ht

def Node.setHCost : Node → CostExpr → Node
  | .mk p g _ f pa ht, h => .mk p g h f pa ht

def Node.setFCost : Node → CostExpr → Node
  | .mk p g h _ pa ht, f => .mk p g h f pa ht

def Node.setParent : Node → Option Node → Node
  | .mk p g h f _ ht, pa => .mk p g h f pa ht

def Node.setHeight : Node → JSNum → Node
  | .mk p g h f pa _, ht => .mk p g h f pa ht

/-- `new Node(position)` with the constructor defaults. -/
def newNode (position : Point3D) : Node :=
  .mk position (.lit 0) (.lit 0) (.lit 0) none (.num 0)

/-- Modelled from the spec: the `Node.updateFCost` method is declared on
the pathfinding node but its body is not among the provided sources; the
spec's data model states `fCost = gCost + hCost`. -/
def updateFCost (n : Node) : Node :=
  n.setFCost (.add n.gCost n.hCost)

/-- `Pathfinder.#createStartNode`. -/
def createStartNode (startPosition goalPosition : Point3D) : Node :=
  updateFCost ((newNode startPosition).setHCost (.dist startPosition goalPosition))

/-- `Pathfinder.#validateInput`. -/
def validateInput (grid : Grid) (startPosition goalPosition : Point3D) : Bool :=
  isValidTilePosition startPosition grid && isValidTilePosition goalPosition grid &&
    !equalsB startPosition goalPosition

/-- `Pathfinder.#isInClosedList`. -/
def isInClosedList (node : Node) (closedList : List Node) : Bool :=
  closedList.any fun nodeValue => equalsB nodeValue.position node.position

/-- `Pathfinder.#updateNodeHeight`. -/
def updateNodeHeight (cubes : List Cube) (node : Node) : Node :=
  let nodePosition := cartesianToIsometric node.position
  match findTallestCubeAt cubes nodePosition with
  | some tallestCubeAtNode =>
      node.setHeight (jsAdd tallestCubeAtNode.position.z tallestCubeAtNode.size)
  | none =>
      node.setHeight (jsAdd nodePosition.z (.num TILE_DIMENSIONS.THICKNESS))

/-- The goal-to-start position walk inside `Pathfinder.#reconstructPath`. -/
def collectPath : Node → List Point3D
  | .mk p _ _ _ none _ => [p]
  | .mk p _ _ _ (some parent) _ => p :: collectPath parent

/-- `Pathfinder.#reconstructPath`: walk the parent links, then reverse. -/
def reconstructPath (goalNode : Node) : List Point3D :=
  (collectPath goalNode).reverse

/-- The eight neighbor offsets of `Pathfinder.#getNeighborPositions`. -/
def neighborOffsets : List (ℚ × ℚ) :=
  [(-1, 0), (1, 0), (0, -1), (0, 1), (-1, -1), (1, 1), (-1, 1), (1, -1)]

/-- `Pathfinder.#getNeighborPositions`: build the eight offset positions
with `z = grid[x]?.[y]`, then keep the ones passing
`isValidTilePosition`. -/
def getNeighborPositions (grid : Grid) (position : Point3D) : List Point3D :=
  ((neighborOffsets.map fun offset =>
      let nx := jsAdd position.x (.num offset.1)
      let ny := jsAdd position.y (.num offset.2)
      (⟨nx, ny, gridLookup grid nx ny⟩ : Point3D))).filter
    fun neighborPoint => isValidTilePosition neighborPoint grid

/-- `Pathfinder.#getNeighborNodes`. -/
def getNeighborNodes (grid : Grid) (node : Node) : List Node :=
  (getNeighborPositions grid node.position).map newNode

/-- `Pathfinder.#isDiagonalMove`. -/
def isDiagonalMove (node currentNode : Node) : Bool :=
  jsEqq (jsAbs (jsSub node.position.x currentNode.position.x)) (.num 1) &&
    jsEqq (jsAbs (jsSub node.position.y currentNode.position.y)) (.num 1)

/-- `Pathfinder.#calculateMovementDirection`. -/
def calculateMovementDirection (targetNode currentNode : Node) : JSNum × JSNum :=
  (jsSub targetNode.position.x currentNode.position.x,
   jsSub targetNode.position.y currentNode.position.y)

/-- The two sides of `Pathfinder.#calculateObstaclePosition2D`. -/
inductive Side where
  | left
  | right

/-- `Pathfinder.#calculateObstaclePosition2D`. -/
def calculateObstaclePosition2D (targetNode : Node) (movementDirection : JSNum × JSNum)
    (side : Side) : JSNum × JSNum :=
  match side with
  | .left => (targetNode.position.x, jsSub targetNode.position.y movementDirection.2)
  | .right => (jsSub targetNode.position.x movementDirection.1, targetNode.position.y)

/-- `Pathfinder.#calculateObstaclePosition3D`. -/
def calculateObstaclePosition3D (grid : Grid) (targetNode : Node)
    (movementDirection : JSNum × JSNum) (side : Side) : Point3D :=
  let obstaclePosition2D := calculateObstaclePosition2D targetNode movementDirection side
  let obstacleZ := gridLookup grid obstaclePosition2D.1 obstaclePosition2D.2
  cartesianToIsometric ⟨obstaclePosition2D.1, obstaclePosition2D.2, obstacleZ⟩

/-- `Pathfinder.#getPotentialObstaclePositions`. -/
def getPotentialObstaclePositions (grid : Grid) (targetNode currentNode : Node) :
    List Point3D :=
  let movementDirection := calculateMovementDirection targetNode currentNode
  [calculateObstaclePosition3D grid targetNode movementDirection .left,
   calculateObstaclePosition3D grid targetNode movementDirection .right]

/-- `Pathfinder.#isPathObstructed`: only diagonal moves can be
obstructed; a diagonal is blocked when every flanking position has no
tile or holds a cube. -/
def isPathObstructed (grid : Grid) (cubes : List Cube) (node currentNode : Node) :
    Bool :=
  if !isDiagonalMove node currentNode then false
  else
    (getPotentialObstaclePositions grid node currentNode).all fun position =>
      (findTileByExactPosition grid position).isNone ||
        (findTallestCubeAt cubes position).isSome

/-- `Pathfinder.#isObstacle`. -/
def isObstacle (cubes : List Cube) (node currentNode : Node) : Bool :=
  let nodePosition := cartesianToIsometric node.position
  let tallestCubeAtNode := findTallestCubeAt cubes nodePosition
  let isNarrowerThanAvatar : Bool :=
    match tallestCubeAtNode with
    | some c => jsLt c.size (.num AVATAR_DIMENSIONS.WIDTH)
    | none => false
  let maximumHeightThreshold :=
    jsAdd currentNode.height (.num (AVATAR_DIMENSIONS.HEIGHT / (3 / 2)))
  let isNodeHigher := jsGt node.height maximumHeightThreshold
  isNarrowerThanAvatar || isNodeHigher

/-- `Pathfinder.#calculateGCost`: unit cost `√2` when
`|Δx| - |Δy| === 0`, else `1`, multiplied by the neighbor's own gCost
and added to the current node's gCost. -/
def calculateGCost (currentNode neighborNode : Node) : CostExpr :=
  let dx := jsAbs (jsSub currentNode.position.x neighborNode.position.x)
  let dy := jsAbs (jsSub currentNode.position.y neighborNode.position.y)
  let costOfMovement : CostExpr :=
    if jsEqq (jsSub dx dy) (.num 0) then .mul .sqrtTwo neighborNode.gCost
    else .mul (.lit 1) neighborNode.gCost
  .add currentNode.gCost costOfMovement

/-- `Pathfinder.#updateNeighborNode`: set gCost, hCost, recompute fCost,
set the parent. -/
def updateNeighborNode (neighborNode currentNode : Node) (gCost : CostExpr)
    (goalPosition : Point3D) : Node :=
  (updateFCost ((neighborNode.setGCost gCost).setHCost
      (.dist neighborNode.position goalPosition))).setParent (some currentNode)

/-- `Pathfinder.#findExistingNode`. -/
def findExistingNode (neighborNode : Node) (openList : List Node) : Option Node :=
  openList.find? fun node => equalsB node.position neighborNode.position

/-- The float comparisons the program performs on costs (`fCost`
subtraction inside the heap comparator, `<` for the closest-node update,
`>=` for the open-list skip), abstracted as Boolean functions.  Every
search theorem below holds for every such model. -/
structure CostModel where
  lt : CostExpr → CostExpr → Bool
  ge : CostExpr → CostExpr → Bool

/-- `Pathfinder.#processNeighborNode`: resolve the neighbor's height,
drop it when it is an obstacle or the diagonal is obstructed, otherwise
update the (fresh) node and push it unless a node at the same position
already sits in the open list. -/
def processNeighborNode (M : CostModel) (grid : Grid) (cubes : List Cube)
    (neighborNode currentNode : Node) (openList : List Node)
    (goalPosition : Point3D) : List Node :=
  let neighborNode := updateNodeHeight cubes neighborNode
  if isObstacle cubes neighborNode currentNode ||
      isPathObstructed grid cubes neighborNode currentNode then openList
  else
    let existingNode := findExistingNode neighborNode openList
    let gCost := calculateGCost currentNode neighborNode
    match existingNode with
    | some existing =>
        -- when a node at this position is already in the open list, the
        -- code either returns early (gCost >= existing.gCost) or updates
        -- the fresh node without pushing it: the open list is unchanged
        if M.ge gCost existing.gCost then openList else openList
    | none => openList ++ [updateNeighborNode neighborNode currentNode gCost goalPosition]

/-- Extraction of the minimum from the heap-js min-heap ordered by the
fCost comparator: some minimal element (the leftmost one under the
model's comparison) leaves the list. -/
def popMin (lt : CostExpr → CostExpr → Bool) : List Node → Option (Node × List Node)
  | [] => none
  | a :: rest =>
    match popMin lt rest with
    | none => some (a, [])
    | some (m, r) => if lt m.fCost a.fCost then some (m, a :: r) else some (a, rest)

/-- The `while (!openList.isEmpty())` loop of `Pathfinder.findPath`,
with explicit fuel (`none` = fuel exhausted; the bound below is proved
sufficient).  `some none` is the JS `null` result. -/
def searchLoop (M : CostModel) (grid : Grid) (cubes : List Cube)
    (goalPosition : Point3D) (isRecalculating : Bool) :
    ℕ → List Node → List Node → Node → Option (Option (List Point3D))
  | 0, _, _, _ => none
  | fuel + 1, openList, closedList, closestNode =>
    match popMin M.lt openList with
    | none =>
        some (if isRecalculating then some (reconstructPath closestNode) else none)
    | some (currentNode, rest) =>
      if isInClosedList currentNode closedList then
        searchLoop M grid cubes goalPosition isRecalculating fuel rest closedList
          closestNode
      else
        let current := updateNodeHeight cubes currentNode
        let closedList' := closedList ++ [current]
        let closestNode' :=
          if M.lt current.fCost closestNode.fCost then current else closestNode
        if equalsB current.position goalPosition then
          some (some (reconstructPath current))
        else
          let openList' := (getNeighborNodes grid current).foldl
            (fun ol nb => processNeighborNode M grid cubes nb current ol goalPosition)
            rest
          searchLoop M grid cubes goalPosition isRecalculating fuel openList'
            closedList' closestNode'

/-- The longest row length of the grid, as a natural number. -/
def maxRowLenNat (grid : Grid) : ℕ :=
  (grid.map List.length).foldl max 0

/-- An upper bound on the number of distinct cells the search can ever
process: valid cells are confined to `[0, L-1] × [0, M-1]` and to the
integer lattice through the start cell, so their offsets from the start
fit in `[-L, L] × [-M, M]`. -/
def boundCells (grid : Grid) : ℕ :=
  (2 * grid.length + 1) * (2 * maxRowLenNat grid + 1)

/-- Fuel sufficient for the search loop (proved below): every processed
node occupies a distinct valid cell of the start-aligned lattice, and
each processing step pushes at most eight nodes. -/
def fuelBound (grid : Grid) : ℕ :=
  9 * boundCells grid + 10

/-- The position at the root of a node's parent chain (the start node of
any node created by the search). -/
def rootPos : Node → Point3D
  | .mk p _ _ _ none _ => p
  | .mk _ _ _ _ (some parent) _ => rootPos parent

/-- Integer extraction from a JS number (junk on non-rationals; only
applied to integral values). -/
def intOfJS : JSNum → ℤ
  | .num q => q.num
  | _ => 0

/-- The integer offset of a position from the start position, used to
count the cells the search can visit. -/
def encodeP (s p : Point3D) : ℤ × ℤ :=
  (intOfJS (jsSub p.x s.x), intOfJS (jsSub p.y s.y))

/-- Invariant of every position held by a search node: it passes tile
validation and lies on the integer lattice through the start position. -/
def PosOK (grid : Grid) (s p : Point3D) : Prop :=
  isValidTilePosition p grid = true ∧
  (∃ i : ℤ, jsSub p.x s.x = .num (i : ℚ)) ∧
  (∃ j : ℤ, jsSub p.y s.y = .num (j : ℚ))

/-- `Pathfinder.findPath` with the fuel exposed (`none` = fuel ran out,
`some r` = the JS return value `r`). -/
def findPathFuel (M : CostModel) (grid : Grid) (cubes : List Cube)
    (startPosition goalPosition : Point3D) (isRecalculating : Bool) (fuel : ℕ) :
    Option (Option (List Point3D)) :=
  if validateInput grid startPosition goalPosition then
    let startNode := createStartNode startPosition goalPosition
    searchLoop M grid cubes goalPosition isRecalculating fuel [startNode] [] startNode
  else some none

/-- `Pathfinder.findPath` (the fuel bound never runs out, see the
termination theorem). -/
def findPath (M : CostModel) (grid : Grid) (cubes : List Cube)
    (startPosition goalPosition : Point3D) (isRecalculating : Bool) :
    Option (List Point3D) :=
  match findPathFuel M grid cubes startPosition goalPosition isRecalculating
      (fuelBound grid) with
  | some r => r
  | none => none

/-- Semantic value of a `JSNum` for stating cost identities over ℝ (the
non-finite values, never produced by the cost formulas under scrutiny,
are mapped to 0). -/
def jsToReal : JSNum → ℝ
  | .num q => (q : ℝ)
  | _ => 0

/-- Real-number semantics of a symbolic cost. -/
noncomputable def CostExpr.val : CostExpr → ℝ
  | .lit q => (q : ℝ)
  | .sqrtTwo => Real.sqrt 2
  | .dist p q =>
      Real.sqrt ((jsToReal p.x - jsToReal q.x) ^ 2 + (jsToReal p.y - jsToReal q.y) ^ 2 +
        (jsToReal p.z - jsToReal q.z) ^ 2)
  | .add a b => a.val + b.val
  | .mul a b => a.val * b.val

/-! ## Theorems -/

/-- `findPath` returns `null` whenever input validation fails. -/
theorem findPath_of_invalid (M : CostModel) (grid : Grid) (cubes : List Cube)
    (s g : Point3D) (rec : Bool) (h : validateInput grid s g = false) :
    findPath M grid cubes s g rec = none := by
  unfold findPath findPathFuel
  rw [h]
  simp

/-- C2: for every pair of nodes, `isPathObstructed` returns true exactly
when the move is diagonal and, for both flanking corner cells
`(candidate.x, candidate.y − dy)` and `(candidate.x − dx, candidate.y)`
(with `(dx, dy) = candidate − current`), either no tile exists at that
cell's transformed position or an obstacle occupies it; in particular it
returns false for every non-diagonal move. -/
theorem isPathObstructed_iff_diagonal_and_flanks_blocked (grid : Grid)
    (cubes : List Cube) (node currentNode : Node) :
    isPathObstructed grid cubes node currentNode = true ↔
      (isDiagonalMove node currentNode = true ∧
        (∀ c ∈ [(node.position.x,
                  jsSub node.position.y (jsSub node.position.y currentNode.position.y)),
                (jsSub node.position.x (jsSub node.position.x currentNode.position.x),
                  node.position.y)],
          ((findTileByExactPosition grid
              (cartesianToIsometric ⟨c.1, c.2, gridLookup grid c.1 c.2⟩)).isNone ∨
           (findTallestCubeAt cubes
              (cartesianToIsometric ⟨c.1, c.2, gridLookup grid c.1 c.2⟩)).isSome))) := by
  unfold isPathObstructed getPotentialObstaclePositions calculateObstaclePosition3D
    calculateObstaclePosition2D calculateMovementDirection
  cases hd : isDiagonalMove node currentNode <;>
    simp [hd, Option.isNone_iff_eq_none, Option.isSome_iff_exists]

/-- C5: the resolved node height is `tallestCube.z + tallestCube.size`
when a tallest cube exists at the cell's transformed position, and the
cell's tile elevation (the z of the tile's isometric position) plus the
tile thickness constant otherwise; the resolution touches nothing but
the height field (the embedding is pure, so the grid and the obstacle
set are untouched by construction). -/
theorem updateNodeHeight_spec (cubes : List Cube) (node : Node) :
    ((∃ c, findTallestCubeAt cubes (cartesianToIsometric node.position) = some c ∧
        (updateNodeHeight cubes node).height = jsAdd c.position.z c.size) ∨
      (findTallestCubeAt cubes (cartesianToIsometric node.position) = none ∧
        (updateNodeHeight cubes node).height =
          jsAdd (cartesianToIsometric node.position).z (.num TILE_DIMENSIONS.THICKNESS))) ∧
    (updateNodeHeight cubes node).position = node.position ∧
    (updateNodeHeight cubes node).gCost = node.gCost ∧
    (updateNodeHeight cubes node).hCost = node.hCost ∧
    (updateNodeHeight cubes node).fCost = node.fCost ∧
    (updateNodeHeight cubes node).parent = node.parent := by
  obtain ⟨p, g, h, f, pa, ht⟩ := node
  unfold updateNodeHeight
  simp only [Node.position]
  cases hc : findTallestCubeAt cubes (cartesianToIsometric p) <;>
    simp [hc, Node.position, Node.gCost, Node.hCost, Node.fCost, Node.parent,
      Node.height, Node.setHeight]

/-- C6: `isObstacle` holds exactly when the tallest cube at the
candidate's transformed position exists and is narrower than the
avatar's width, or the candidate's height strictly exceeds the current
node's height plus two thirds of the avatar height; with no cube at the
cell, the narrowness condition is false. -/
theorem isObstacle_iff (cubes : List Cube) (node currentNode : Node) :
    isObstacle cubes node currentNode = true ↔
      ((∃ c, findTallestCubeAt cubes (cartesianToIsometric node.position) = some c ∧
          jsLt c.size (.num AVATAR_DIMENSIONS.WIDTH) = true) ∨
        jsGt node.height
          (jsAdd currentNode.height (.num (AVATAR_DIMENSIONS.HEIGHT * (2 / 3)))) = true) := by
  unfold isObstacle
  have hq : AVATAR_DIMENSIONS.HEIGHT / (3 / 2) = AVATAR_DIMENSIONS.HEIGHT * (2 / 3) := by
    norm_num [AVATAR_DIMENSIONS]
  rw [hq]
  cases hc : findTallestCubeAt cubes (cartesianToIsometric node.position) <;>
    simp [hc]

/-- `isValidTilePosition` unfolded to a single Boolean formula. -/
theorem isValidTilePosition_eq (p : Point3D) (grid : Grid) :
    isValidTilePosition p grid =
      (isTilePositionInBounds p grid &&
        (!jsEqq (gridLookup grid p.x p.y) (.num (-1)) &&
          jsEqq (gridLookup grid p.x p.y) p.z)) := by
  unfold isValidTilePosition
  cases h : isTilePositionInBounds p grid <;> simp [h]

/-- C10: endpoint validation couples all three coordinates to the grid:
a start position whose z differs (under `===`) from the grid value at
its cell is rejected and `findPath` returns `null`, even when the cell
is in bounds and holds a walkable tile; and in general a position passes
validation only when the looked-up tile height is not `-1` and equals
the position's z. -/
theorem validation_couples_z_to_grid (M : CostModel) (grid : Grid) (cubes : List Cube)
    (s g : Point3D) (rec : Bool)
    (hb : isTilePositionInBounds s grid = true)
    (hw : jsEqq (gridLookup grid s.x s.y) (.num (-1)) = false)
    (hz : jsEqq (gridLookup grid s.x s.y) s.z = false) :
    isValidTilePosition s grid = false ∧
    findPath M grid cubes s g rec = none ∧
    (∀ p : Point3D, isValidTilePosition p grid = true →
      jsEqq (gridLookup grid p.x p.y) (.num (-1)) = false ∧
      jsEqq (gridLookup grid p.x p.y) p.z = true) := by
  have hs : isValidTilePosition s grid = false := by
    rw [isValidTilePosition_eq, hb, hw, hz]
    rfl
  refine ⟨hs, findPath_of_invalid M grid cubes s g rec ?_, fun p hp => ?_⟩
  · unfold validateInput
    rw [hs]
    rfl
  · rw [isValidTilePosition_eq] at hp
    constructor
    · cases h : jsEqq (gridLookup grid p.x p.y) (.num (-1)) <;> simp [h] at hp ⊢
    · cases h : jsEqq (gridLookup grid p.x p.y) p.z <;> simp [h] at hp ⊢

/-- C4: `findPath` returns `null` (with no exception: the embedding is a
total function) whenever the start is out of bounds or its tile height
is the absent sentinel `-1`, or likewise for the goal, or the start
equals the goal. -/
theorem findPath_none_of_invalid_endpoints (M : CostModel) (grid : Grid)
    (cubes : List Cube) (s g : Point3D) (rec : Bool)
    (h : isTilePositionInBounds s grid = false ∨
      jsEqq (gridLookup grid s.x s.y) (.num (-1)) = true ∨
      isTilePositionInBounds g grid = false ∨
      jsEqq (gridLookup grid g.x g.y) (.num (-1)) = true ∨
      equalsB s g = true) :
    findPath M grid cubes s g rec = none := by
  apply findPath_of_invalid
  unfold validateInput
  rcases h with h | h | h | h | h
  · rw [isValidTilePosition_eq s grid, h]
    rfl
  · rw [isValidTilePosition_eq s grid, h]
    simp
  · rw [isValidTilePosition_eq g grid, h]
    simp
  · rw [isValidTilePosition_eq g grid, h]
    simp
  · rw [h]
    simp

/-- C3: for every neighbor expansion (the neighbor's cell differs from
the current cell by one of the eight offsets), the tentative gCost is
`current.gCost + unit * neighbor.gCost` where the unit is `√2` for a
diagonal move and `1` otherwise — the unit is multiplied by the
neighbor's own prior gCost field, so for a freshly created neighbor
(gCost `0`) the incremental move cost vanishes and the tentative gCost
equals the current node's gCost. -/
theorem calculateGCost_scales_by_neighbor_gCost (current neighbor : Node)
    (ax ay : ℚ) (off : ℚ × ℚ) (hoff : off ∈ neighborOffsets)
    (hcx : current.position.x = .num ax) (hcy : current.position.y = .num ay)
    (hnx : neighbor.position.x = .num (ax + off.1))
    (hny : neighbor.position.y = .num (ay + off.2)) :
    (calculateGCost current neighbor).val =
      current.gCost.val +
        (if |off.1| = 1 ∧ |off.2| = 1 then Real.sqrt 2 else 1) * neighbor.gCost.val ∧
    (neighbor.gCost = .lit 0 →
      (calculateGCost current neighbor).val = current.gCost.val) := by
  unfold calculateGCost
  rw [hcx, hcy, hnx, hny]
  simp only [neighborOffsets, List.mem_cons, List.not_mem_nil, or_false] at hoff
  rcases hoff with h | h | h | h | h | h | h | h <;> subst h <;>
    constructor <;>
    norm_num [CostExpr.val, jsSub, jsNeg, jsAdd, jsAbs, jsEqq] <;>
    intro hg <;> simp [hg, CostExpr.val]

/-- C7: evaluation of the code at the failing input.  In the grid
`[[0], [0, 0]]` the cell `(0, 1)` lies beyond its own row (length 1) but
within the global bounds derived from the longest row (length 2), so the
claim requires it to be impassable; yet the jagged lookup yields the JS
value `undefined`, the neighbor enumeration builds the position
`(0, 1, undefined)`, and validation accepts it (`undefined !== -1` and
`undefined === undefined` both hold), so the cell is accepted as a
neighbor — contradicting the claim (and the `z: number` typing of
`Point3D`). -/
theorem jagged_cell_accepted_as_neighbor :
    isValidTilePosition ⟨.num 0, .num 1, .undef⟩ ([[0], [0, 0]] : Grid) = true ∧
    (⟨.num 0, .num 1, .undef⟩ : Point3D) ∈
      getNeighborPositions ([[0], [0, 0]] : Grid) ⟨.num 1, .num 0, .num 0⟩ := by
  decide

/-- Witness for C10 at a concrete input: the cell `(0,0)` of the grid
`[[0]]` is in bounds and walkable, but the position's z is `5 ≠ 0`. -/
theorem validation_couples_z_to_grid_witness :
    isTilePositionInBounds ⟨.num 0, .num 0, .num 5⟩ ([[0]] : Grid) = true ∧
    jsEqq (gridLookup ([[0]] : Grid) (.num 0) (.num 0)) (.num (-1)) = false ∧
    jsEqq (gridLookup ([[0]] : Grid) (.num 0) (.num 0)) (.num 5) = false ∧
    (isValidTilePosition ⟨.num 0, .num 0, .num 5⟩ ([[0]] : Grid) = false ∧
      findPath ⟨fun _ _ => false, fun _ _ => false⟩ ([[0]] : Grid) []
        ⟨.num 0, .num 0, .num 5⟩ ⟨.num 0, .num 0, .num 0⟩ false = none ∧
      (∀ p : Point3D, isValidTilePosition p ([[0]] : Grid) = true →
        jsEqq (gridLookup ([[0]] : Grid) p.x p.y) (.num (-1)) = false ∧
        jsEqq (gridLookup ([[0]] : Grid) p.x p.y) p.z = true)) :=
  ⟨by decide, by decide, by decide,
    validation_couples_z_to_grid ⟨fun _ _ => false, fun _ _ => false⟩ ([[0]] : Grid) []
      ⟨.num 0, .num 0, .num 5⟩ ⟨.num 0, .num 0, .num 0⟩ false
      (by decide) (by decide) (by decide)⟩

/-- Witness for C4 at a concrete input: start `(5,0,0)` is out of the
bounds of the grid `[[0]]`. -/
theorem findPath_none_of_invalid_endpoints_witness :
    (isTilePositionInBounds ⟨.num 5, .num 0, .num 0⟩ ([[0]] : Grid) = false ∨
      jsEqq (gridLookup ([[0]] : Grid) (Point3D.x ⟨.num 5, .num 0, .num 0⟩)
        (Point3D.y ⟨.num 5, .num 0, .num 0⟩)) (.num (-1)) = true ∨
      isTilePositionInBounds ⟨.num 0, .num 0, .num 0⟩ ([[0]] : Grid) = false ∨
      jsEqq (gridLookup ([[0]] : Grid) (Point3D.x ⟨.num 0, .num 0, .num 0⟩)
        (Point3D.y ⟨.num 0, .num 0, .num 0⟩)) (.num (-1)) = true ∨
      equalsB ⟨.num 5, .num 0, .num 0⟩ ⟨.num 0, .num 0, .num 0⟩ = true) ∧
    findPath ⟨fun _ _ => false, fun _ _ => false⟩ ([[0]] : Grid) []
      ⟨.num 5, .num 0, .num 0⟩ ⟨.num 0, .num 0, .num 0⟩ true = none :=
  ⟨Or.inl (by decide),
    findPath_none_of_invalid_endpoints ⟨fun _ _ => false, fun _ _ => false⟩
      ([[0]] : Grid) [] ⟨.num 5, .num 0, .num 0⟩ ⟨.num 0, .num 0, .num 0⟩ true
      (Or.inl (by decide))⟩

/-- Witness for C3 at a concrete input: the diagonal offset `(1,1)` from
cell `(2,3)`, with a prior neighbor gCost of `0`. -/
theorem calculateGCost_scales_by_neighbor_gCost_witness :
    ((1 : ℚ), (1 : ℚ)) ∈ neighborOffsets ∧
    (Node.mk ⟨.num 2, .num 3, .num 0⟩ (.lit 7) (.lit 0) (.lit 0) none
        (.num 0)).position.x = .num 2 ∧
    (Node.mk ⟨.num 2, .num 3, .num 0⟩ (.lit 7) (.lit 0) (.lit 0) none
        (.num 0)).position.y = .num 3 ∧
    (Node.mk ⟨.num 3, .num 4, .num 0⟩ (.lit 0) (.lit 0) (.lit 0) none
        (.num 0)).position.x = .num (2 + 1) ∧
    (Node.mk ⟨.num 3, .num 4, .num 0⟩ (.lit 0) (.lit 0) (.lit 0) none
        (.num 0)).position.y = .num (3 + 1) ∧
    ((calculateGCost
        (Node.mk ⟨.num 2, .num 3, .num 0⟩ (.lit 7) (.lit 0) (.lit 0) none (.num 0))
        (Node.mk ⟨.num 3, .num 4, .num 0⟩ (.lit 0) (.lit 0) (.lit 0) none (.num 0))).val =
      (CostExpr.lit 7).val +
        (if |(1 : ℚ)| = 1 ∧ |(1 : ℚ)| = 1 then Real.sqrt 2 else 1) *
          (CostExpr.lit 0).val ∧
      ((CostExpr.lit 0 : CostExpr) = .lit 0 →
        (calculateGCost
          (Node.mk ⟨.num 2, .num 3, .num 0⟩ (.lit 7) (.lit 0) (.lit 0) none (.num 0))
          (Node.mk ⟨.num 3, .num 4, .num 0⟩ (.lit 0) (.lit 0) (.lit 0) none
            (.num 0))).val = (CostExpr.lit 7).val)) :=
  ⟨by decide, by decide, by decide, by decide, by decide,
    calculateGCost_scales_by_neighbor_gCost
      (Node.mk ⟨.num 2, .num 3, .num 0⟩ (.lit 7) (.lit 0) (.lit 0) none (.num 0))
      (Node.mk ⟨.num 3, .num 4, .num 0⟩ (.lit 0) (.lit 0) (.lit 0) none (.num 0))
      2 3 (1, 1) (by decide) (by decide) (by decide) (by decide) (by decide)⟩

/-! Helper lemmas for the search-loop invariants. -/

theorem updateNodeHeight_position (cubes : List Cube) (n : Node) :
    (updateNodeHeight cubes n).position = n.position := by
  obtain ⟨p, g, h, f, pa, ht⟩ := n
  unfold updateNodeHeight
  simp only [Node.position]
  cases hc : findTallestCubeAt cubes (cartesianToIsometric p) <;>
    simp [hc, Node.setHeight, Node.position]

theorem rootPos_setHeight (n : Node) (h : JSNum) :
    rootPos (n.setHeight h) = rootPos n := by
  obtain ⟨p, g, hc, f, pa, ht⟩ := n
  cases pa <;> rfl

theorem rootPos_updateNodeHeight (cubes : List Cube) (n : Node) :
    rootPos (updateNodeHeight cubes n) = rootPos n := by
  obtain ⟨p, g, h, f, pa, ht⟩ := n
  unfold updateNodeHeight
  simp only [Node.position]
  cases hc : findTallestCubeAt cubes (cartesianToIsometric p) <;>
    simp only [hc, Node.setHeight] <;> cases pa <;> rfl

theorem updateNeighborNode_position (nb cur : Node) (g : CostExpr) (goal : Point3D) :
    (updateNeighborNode nb cur g goal).position = nb.position := by
  obtain ⟨p, gc, h, f, pa, ht⟩ := nb
  rfl

theorem rootPos_updateNeighborNode (nb cur : Node) (g : CostExpr) (goal : Point3D) :
    rootPos (updateNeighborNode nb cur g goal) = rootPos cur := by
  obtain ⟨p, gc, h, f, pa, ht⟩ := nb
  rfl

theorem collectPath_ne_nil (n : Node) : collectPath n ≠ [] := by
  obtain ⟨p, g, h, f, pa, ht⟩ := n
  cases pa <;> simp [collectPath]

theorem reconstructPath_ne_nil (n : Node) : reconstructPath n ≠ [] := by
  unfold reconstructPath
  simp [collectPath_ne_nil]

theorem collectPath_head? (n : Node) : (collectPath n).head? = some n.position := by
  obtain ⟨p, g, h, f, pa, ht⟩ := n
  cases pa <;> rfl

theorem collectPath_getLast? (n : Node) :
    (collectPath n).getLast? = some (rootPos n) := by
  induction n using collectPath.induct with
  | case1 p g h f ht => rfl
  | case2 p g h f parent ht ih =>
      simp [collectPath, List.getLast?_cons, ih, rootPos]

theorem reconstructPath_head? (n : Node) :
    (reconstructPath n).head? = some (rootPos n) := by
  unfold reconstructPath
  rw [List.head?_reverse]
  exact collectPath_getLast? n

theorem reconstructPath_getLast? (n : Node) :
    (reconstructPath n).getLast? = some n.position := by
  unfold reconstructPath
  rw [List.getLast?_reverse]
  exact collectPath_head? n

theorem popMin_eq_none (lt : CostExpr → CostExpr → Bool) (l : List Node) :
    popMin lt l = none ↔ l = [] := by
  cases l with
  | nil => simp [popMin]
  | cons a rest =>
      simp only [popMin]
      cases h : popMin lt rest with
      | none => simp
      | some pr =>
          cases pr with
          | mk m r => by_cases hlt : lt m.fCost a.fCost = true <;> simp [hlt]

theorem popMin_perm (lt : CostExpr → CostExpr → Bool) :
    ∀ (l : List Node) (n : Node) (r : List Node),
      popMin lt l = some (n, r) → (n :: r).Perm l := by
  intro l
  induction l with
  | nil => intro n r h; simp [popMin] at h
  | cons a rest ih =>
      intro n r h
      simp only [popMin] at h
      cases hrest : popMin lt rest with
      | none =>
          rw [hrest] at h
          rw [(popMin_eq_none lt rest).mp hrest]
          simp at h
          simp [h.1, h.2]
      | some pr =>
          obtain ⟨m, r'⟩ := pr
          rw [hrest] at h
          by_cases hlt : lt m.fCost a.fCost = true
          · simp [hlt] at h
            obtain ⟨hn, hr⟩ := h
            subst hn
            subst hr
            exact (List.Perm.swap a m r').trans ((ih m r' hrest).cons a)
          · simp [hlt] at h
            obtain ⟨hn, hr⟩ := h
            subst hn
            subst hr
            exact List.Perm.refl _

theorem popMin_mem (lt : CostExpr → CostExpr → Bool) (l : List Node) (n : Node)
    (r : List Node) (h : popMin lt l = some (n, r)) : n ∈ l :=
  (popMin_perm lt l n r h).mem_iff.mp (List.mem_cons_self n r)

theorem popMin_sub (lt : CostExpr → CostExpr → Bool) (l : List Node) (n : Node)
    (r : List Node) (h : popMin lt l = some (n, r)) : ∀ x ∈ r, x ∈ l :=
  fun _x hx => (popMin_perm lt l n r h).mem_iff.mp (List.mem_cons_of_mem n hx)

theorem popMin_length (lt : CostExpr → CostExpr → Bool) (l : List Node) (n : Node)
    (r : List Node) (h : popMin lt l = some (n, r)) : r.length + 1 = l.length := by
  have := (popMin_perm lt l n r h).length_eq
  simpa using this

theorem jsEqq_num_true {q : ℚ} {v : JSNum} (h : jsEqq (.num q) v = true) :
    v = .num q := by
  cases v <;> simp [jsEqq] at h ⊢
  exact h.symm

theorem jsEqq_undef_true {v : JSNum} (h : jsEqq .undef v = true) : v = .undef := by
  cases v <;> simp [jsEqq] at h ⊢

theorem gridLookup_shape (grid : Grid) (x y : JSNum) :
    (∃ q, gridLookup grid x y = .num q) ∨ gridLookup grid x y = .undef := by
  unfold gridLookup
  cases listIdx? grid x with
  | none => exact Or.inr rfl
  | some row =>
      dsimp only
      cases listIdx? row y with
      | none => exact Or.inr rfl
      | some q => exact Or.inl ⟨q, rfl⟩

theorem cast_foldl_max (l : List (List ℚ)) (a : ℕ) :
    ((l.foldl (fun acc row => max acc row.length) a : ℕ) : ℚ) =
      l.foldl (fun (acc : ℚ) row => max acc (row.length : ℚ)) (a : ℚ) := by
  induction l generalizing a with
  | nil => rfl
  | cons r t ih =>
      simp only [List.foldl_cons]
      rw [ih, Nat.cast_max]

theorem foldl_jsMax_num (l : List (List ℚ)) (a : ℚ) :
    l.foldl (fun acc row => jsMax acc (.num (row.length : ℚ))) (.num a) =
      .num (l.foldl (fun (acc : ℚ) row => max acc (row.length : ℚ)) a) := by
  induction l generalizing a with
  | nil => rfl
  | cons r t ih =>
      simp only [List.foldl_cons]
      rw [show jsMax (.num a) (.num (r.length : ℚ)) = .num (max a (r.length : ℚ)) from rfl,
        ih]

theorem maxRowLenJS_eq (grid : Grid) (h : grid ≠ []) :
    maxRowLenJS grid = .num (maxRowLenNat grid) := by
  cases grid with
  | nil => exact absurd rfl h
  | cons r t =>
      unfold maxRowLenJS maxRowLenNat
      rw [List.foldl_map]
      simp only [List.foldl_cons]
      rw [show jsMax JSNum.negInf (.num (r.length : ℚ)) = .num (r.length : ℚ) from rfl,
        foldl_jsMax_num, cast_foldl_max,
        show max 0 r.length = r.length from Nat.zero_max r.length]

theorem maxRowLenJS_cases (grid : Grid) :
    maxRowLenJS grid = .negInf ∨ maxRowLenJS grid = .num (maxRowLenNat grid) := by
  cases grid with
  | nil => exact Or.inl rfl
  | cons r t => exact Or.inr (maxRowLenJS_eq (r :: t) (by simp))

/-- A position that passes validation has numeric x and y confined to
the grid bounds, and its z equals the grid lookup at its cell. -/
theorem valid_extract (p : Point3D) (grid : Grid)
    (h : isValidTilePosition p grid = true) :
    ∃ a b : ℚ, p.x = .num a ∧ p.y = .num b ∧ 0 ≤ a ∧ a ≤ (grid.length : ℚ) - 1 ∧
      0 ≤ b ∧ b ≤ (maxRowLenNat grid : ℚ) - 1 ∧ p.z = gridLookup grid p.x p.y := by
  rw [isValidTilePosition_eq] at h
  have hb : isTilePositionInBounds p grid = true := by
    cases hbb : isTilePositionInBounds p grid <;> simp [hbb] at h ⊢
  have hz : jsEqq (gridLookup grid p.x p.y) p.z = true := by
    rw [hb] at h
    cases hzz : jsEqq (gridLookup grid p.x p.y) p.z <;> simp [hzz] at h ⊢
  unfold isTilePositionInBounds at hb
  simp only [Bool.and_eq_true] at hb
  obtain ⟨⟨⟨h1, h2⟩, h3⟩, h4⟩ := hb
  obtain ⟨a, hax⟩ : ∃ a : ℚ, p.x = .num a := by
    cases hx : p.x with
    | num a => exact ⟨a, rfl⟩
    | posInf => rw [hx] at h3; simp [jsLe] at h3
    | negInf => rw [hx] at h1; simp [jsGe, jsLe] at h1
    | nan => rw [hx] at h1; simp [jsGe, jsLe] at h1
    | undef => rw [hx] at h1; simp [jsGe, jsLe] at h1
  obtain ⟨b, hby⟩ : ∃ b : ℚ, p.y = .num b := by
    cases hy : p.y with
    | num b => exact ⟨b, rfl⟩
    | posInf =>
        rw [hy] at h4
        rcases maxRowLenJS_cases grid with hm | hm <;>
          rw [hm] at h4 <;> simp [jsSub, jsNeg, jsAdd, jsLe] at h4
    | negInf => rw [hy] at h2; simp [jsGe, jsLe] at h2
    | nan => rw [hy] at h2; simp [jsGe, jsLe] at h2
    | undef => rw [hy] at h2; simp [jsGe, jsLe] at h2
  rw [hax] at h1 h3
  rw [hby] at h2 h4
  have hy4 : b ≤ (maxRowLenNat grid : ℚ) - 1 := by
    rcases maxRowLenJS_cases grid with hm | hm <;> rw [hm] at h4
    · simp [jsSub, jsNeg, jsAdd, jsLe] at h4
    · simpa [jsSub, jsNeg, jsAdd, jsLe, sub_eq_add_neg] using h4
  refine ⟨a, b, hax, hby, ?_, ?_, ?_, hy4, ?_⟩
  · simpa [jsGe, jsLe] using h1
  · simpa [jsLe] using h3
  · simpa [jsGe, jsLe] using h2
  · rcases gridLookup_shape grid p.x p.y with ⟨q, hq⟩ | hq
    · rw [hq] at hz ⊢
      exact jsEqq_num_true hz
    · rw [hq] at hz ⊢
      exact jsEqq_undef_true hz

theorem jsSub_num_num {a c : ℚ} {v : JSNum} (h : jsSub (.num a) v = .num c) :
    ∃ sa, v = .num sa ∧ c = a - sa := by
  cases v <;> simp [jsSub, jsNeg, jsAdd] at h
  exact ⟨_, rfl, by rw [← h]; ring⟩

theorem equalsB_true_imp (p q : Point3D)
    (ha : ∃ a : ℚ, p.x = .num a) (hb : ∃ b : ℚ, p.y = .num b)
    (hz : (∃ c : ℚ, p.z = .num c) ∨ p.z = .undef)
    (h : equalsB p q = true) : p = q := by
  obtain ⟨a, hax⟩ := ha
  obtain ⟨b, hby⟩ := hb
  unfold equalsB at h
  simp only [Bool.and_eq_true] at h
  obtain ⟨⟨h1, h2⟩, h3⟩ := h
  rw [hax] at h1
  rw [hby] at h2
  have hqz : q.z = p.z := by
    rcases hz with ⟨c, hcz⟩ | hcz <;> rw [hcz] at h3 ⊢
    · exact jsEqq_num_true h3
    · exact jsEqq_undef_true h3
  obtain ⟨px, py, pz⟩ := p
  obtain ⟨qx, qy, qz⟩ := q
  simp only at hax hby
  simp only [Point3D.mk.injEq]
  exact ⟨by rw [hax, ← jsEqq_num_true h1], by rw [hby, ← jsEqq_num_true h2], hqz.symm⟩

theorem equalsB_refl_of_shape (p : Point3D)
    (ha : ∃ a : ℚ, p.x = .num a) (hb : ∃ b : ℚ, p.y = .num b)
    (hz : (∃ c : ℚ, p.z = .num c) ∨ p.z = .undef) : equalsB p p = true := by
  obtain ⟨a, hax⟩ := ha
  obtain ⟨b, hby⟩ := hb
  unfold equalsB
  rw [hax, hby]
  rcases hz with ⟨c, hcz⟩ | hcz <;> rw [hcz] <;> simp [jsEqq]

theorem PosOK.shape {grid : Grid} {s p : Point3D} (h : PosOK grid s p) :
    (∃ a : ℚ, p.x = .num a) ∧ (∃ b : ℚ, p.y = .num b) ∧
      ((∃ c : ℚ, p.z = .num c) ∨ p.z = .undef) := by
  obtain ⟨hv, _, _⟩ := h
  obtain ⟨a, b, hax, hby, _, _, _, _, hzz⟩ := valid_extract p grid hv
  refine ⟨⟨a, hax⟩, ⟨b, hby⟩, ?_⟩
  rw [hzz]
  rcases gridLookup_shape grid p.x p.y with ⟨q, hq⟩ | hq
  · exact Or.inl ⟨q, hq⟩
  · exact Or.inr hq

theorem encodeP_inj (grid : Grid) (s p q : Point3D)
    (hp : PosOK grid s p) (hq : PosOK grid s q)
    (h : encodeP s p = encodeP s q) : p = q := by
  obtain ⟨hvp, ⟨i, hip⟩, ⟨j, hjp⟩⟩ := hp
  obtain ⟨hvq, ⟨i', hiq⟩, ⟨j', hjq⟩⟩ := hq
  obtain ⟨a, b, hax, hby, _, _, _, _, hzp⟩ := valid_extract p grid hvp
  obtain ⟨a', b', hax', hby', _, _, _, _, hzq⟩ := valid_extract q grid hvq
  unfold encodeP at h
  rw [hip, hjp, hiq, hjq] at h
  simp only [intOfJS, Rat.num_intCast, Prod.mk.injEq] at h
  obtain ⟨hi, hj⟩ := h
  subst hi
  subst hj
  rw [hax] at hip
  rw [hax'] at hiq
  rw [hby] at hjp
  rw [hby'] at hjq
  obtain ⟨sa, hsx, hia⟩ := jsSub_num_num hip
  obtain ⟨sa', hsx', hia'⟩ := jsSub_num_num hiq
  obtain ⟨sb, hsy, hjb⟩ := jsSub_num_num hjp
  obtain ⟨sb', hsy', hjb'⟩ := jsSub_num_num hjq
  have hsa : sa = sa' := JSNum.num.inj (hsx.symm.trans hsx')
  have hsb : sb = sb' := JSNum.num.inj (hsy.symm.trans hsy')
  have hxx : p.x = q.x := by
    rw [hax, hax']
    congr 1
    have h1 : a - sa = a' - sa' := by rw [← hia, ← hia']
    rw [hsa] at h1
    linarith
  have hyy : p.y = q.y := by
    rw [hby, hby']
    congr 1
    have h1 : b - sb = b' - sb' := by rw [← hjb, ← hjb']
    rw [hsb] at h1
    linarith
  have hzz : p.z = q.z := by
    rw [hzp, hzq, hxx, hyy]
  obtain ⟨px, py, pz⟩ := p
  obtain ⟨qx, qy, qz⟩ := q
  simp only at hxx hyy hzz
  simp [hxx, hyy, hzz]

theorem encodeP_mem (grid : Grid) (s p : Point3D)
    (hs : isValidTilePosition s grid = true) (h : PosOK grid s p) :
    encodeP s p ∈
      Finset.Icc (-(grid.length : ℤ)) (grid.length : ℤ) ×ˢ
        Finset.Icc (-(maxRowLenNat grid : ℤ)) (maxRowLenNat grid : ℤ) := by
  obtain ⟨hv, ⟨i, hip⟩, ⟨j, hjp⟩⟩ := h
  obtain ⟨a, b, hax, hby, ha0, haL, hb0, hbM, _⟩ := valid_extract p grid hv
  obtain ⟨sa, sb, hsx, hsy, hsa0, hsaL, hsb0, hsbM, _⟩ := valid_extract s grid hs
  rw [hax] at hip
  rw [hby] at hjp
  obtain ⟨sa2, hsx2, hia⟩ := jsSub_num_num hip
  obtain ⟨sb2, hsy2, hjb⟩ := jsSub_num_num hjp
  have hsa : sa2 = sa := JSNum.num.inj (hsx2.symm.trans hsx)
  have hsb : sb2 = sb := JSNum.num.inj (hsy2.symm.trans hsy)
  rw [hsa] at hia
  rw [hsb] at hjb
  have hiq1 : (-(grid.length : ℚ)) ≤ (i : ℚ) := by rw [hia]; linarith
  have hiq2 : ((i : ℚ)) ≤ (grid.length : ℚ) := by rw [hia]; linarith
  have hjq1 : (-(maxRowLenNat grid : ℚ)) ≤ (j : ℚ) := by rw [hjb]; linarith
  have hjq2 : ((j : ℚ)) ≤ (maxRowLenNat grid : ℚ) := by rw [hjb]; linarith
  have hi1 : -(grid.length : ℤ) ≤ i := by exact_mod_cast hiq1
  have hi2 : i ≤ (grid.length : ℤ) := by exact_mod_cast hiq2
  have hj1 : -(maxRowLenNat grid : ℤ) ≤ j := by exact_mod_cast hjq1
  have hj2 : j ≤ (maxRowLenNat grid : ℤ) := by exact_mod_cast hjq2
  unfold encodeP
  rw [hax, hby, hip, hjp]
  simp only [intOfJS, Rat.num_intCast, Finset.mem_product, Finset.mem_Icc]
  exact ⟨⟨hi1, hi2⟩, ⟨hj1, hj2⟩⟩

theorem closed_length_le (grid : Grid) (s : Point3D) (cl : List Node)
    (hs : isValidTilePosition s grid = true)
    (hok : ∀ n ∈ cl, PosOK grid s n.position)
    (hnd : (cl.map fun n => encodeP s n.position).Nodup) :
    cl.length ≤ boundCells grid := by
  classical
  set S := Finset.Icc (-(grid.length : ℤ)) (grid.length : ℤ) ×ˢ
    Finset.Icc (-(maxRowLenNat grid : ℤ)) (maxRowLenNat grid : ℤ) with hS
  have hsub : (cl.map fun n => encodeP s n.position).toFinset ⊆ S := by
    intro e he
    rw [List.mem_toFinset, List.mem_map] at he
    obtain ⟨n, hn, rfl⟩ := he
    exact encodeP_mem grid s n.position hs (hok n hn)
  have hcard1 : (cl.map fun n => encodeP s n.position).toFinset.card =
      cl.length := by
    rw [List.toFinset_card_of_nodup hnd, List.length_map]
  have hcard2 : S.card = boundCells grid := by
    rw [hS, Finset.card_product, Int.card_Icc, Int.card_Icc]
    unfold boundCells
    have h1 : ((grid.length : ℤ) + 1 - -(grid.length : ℤ)).toNat =
        2 * grid.length + 1 := by omega
    have h2 : ((maxRowLenNat grid : ℤ) + 1 - -(maxRowLenNat grid : ℤ)).toNat =
        2 * maxRowLenNat grid + 1 := by omega
    rw [h1, h2]
  calc cl.length = (cl.map fun n => encodeP s n.position).toFinset.card :=
        hcard1.symm
    _ ≤ S.card := Finset.card_le_card hsub
    _ = boundCells grid := hcard2

theorem newNode_position (p : Point3D) : (newNode p).position = p := rfl

theorem getNeighborPositions_length_le (grid : Grid) (p : Point3D) :
    (getNeighborPositions grid p).length ≤ 8 := by
  unfold getNeighborPositions
  calc (List.filter _ (List.map _ neighborOffsets)).length
      ≤ (List.map _ neighborOffsets).length := List.length_filter_le _ _
    _ = 8 := by rw [List.length_map]; rfl

theorem getNeighborPositions_mem (grid : Grid) (p np : Point3D)
    (h : np ∈ getNeighborPositions grid p) :
    isValidTilePosition np grid = true ∧
      ∃ o ∈ neighborOffsets, np.x = jsAdd p.x (.num o.1) ∧
        np.y = jsAdd p.y (.num o.2) := by
  unfold getNeighborPositions at h
  rw [List.mem_filter] at h
  obtain ⟨hmem, hvalid⟩ := h
  rw [List.mem_map] at hmem
  obtain ⟨o, ho, heq⟩ := hmem
  subst heq
  exact ⟨hvalid, o, ho, rfl, rfl⟩

theorem neighborOffsets_int :
    ∀ o ∈ neighborOffsets, ∃ oi oj : ℤ, o.1 = (oi : ℚ) ∧ o.2 = (oj : ℚ) := by
  intro o ho
  simp only [neighborOffsets, List.mem_cons, List.not_mem_nil, or_false] at ho
  rcases ho with h | h | h | h | h | h | h | h <;> subst h
  · exact ⟨-1, 0, by norm_num, by norm_num⟩
  · exact ⟨1, 0, by norm_num, by norm_num⟩
  · exact ⟨0, -1, by norm_num, by norm_num⟩
  · exact ⟨0, 1, by norm_num, by norm_num⟩
  · exact ⟨-1, -1, by norm_num, by norm_num⟩
  · exact ⟨1, 1, by norm_num, by norm_num⟩
  · exact ⟨-1, 1, by norm_num, by norm_num⟩
  · exact ⟨1, -1, by norm_num, by norm_num⟩

theorem PosOK_neighbor (grid : Grid) (s p np : Point3D) (hp : PosOK grid s p)
    (h : np ∈ getNeighborPositions grid p) : PosOK grid s np := by
  obtain ⟨hvalid, o, ho, hx, hy⟩ := getNeighborPositions_mem grid p np h
  obtain ⟨oi, oj, hoi, hoj⟩ := neighborOffsets_int o ho
  obtain ⟨hvp, ⟨i, hip⟩, ⟨j, hjp⟩⟩ := hp
  obtain ⟨a, b, hax, hby, _, _, _, _, _⟩ := valid_extract p grid hvp
  rw [hax] at hip
  rw [hby] at hjp
  obtain ⟨sa, hsx, hia⟩ := jsSub_num_num hip
  obtain ⟨sb, hsy, hjb⟩ := jsSub_num_num hjp
  refine ⟨hvalid, ⟨i + oi, ?_⟩, ⟨j + oj, ?_⟩⟩
  · rw [hx, hax, hoi, hsx]
    simp only [jsAdd, jsSub, jsNeg]
    congr 1
    push_cast
    rw [hia]
    ring
  · rw [hy, hby, hoj, hsy]
    simp only [jsAdd, jsSub, jsNeg]
    congr 1
    push_cast
    rw [hjb]
    ring

theorem pushed_node_position (cubes : List Cube) (nb cur : Node) (g : CostExpr)
    (goal : Point3D) :
    (updateNeighborNode (updateNodeHeight cubes nb) cur g goal).position =
      nb.position := by
  rw [updateNeighborNode_position, updateNodeHeight_position]

theorem processNeighborNode_cases (M : CostModel) (grid : Grid) (cubes : List Cube)
    (nb cur : Node) (ol : List Node) (goal : Point3D) :
    processNeighborNode M grid cubes nb cur ol goal = ol ∨
    processNeighborNode M grid cubes nb cur ol goal =
      ol ++ [updateNeighborNode (updateNodeHeight cubes nb) cur
        (calculateGCost cur (updateNodeHeight cubes nb)) goal] := by
  unfold processNeighborNode
  by_cases hA : (isObstacle cubes (updateNodeHeight cubes nb) cur ||
      isPathObstructed grid cubes (updateNodeHeight cubes nb) cur) = true
  · left
    simp [hA]
  · simp only [Bool.not_eq_true] at hA
    simp only [hA, Bool.false_eq_true, if_false]
    cases hfind : findExistingNode (updateNodeHeight cubes nb) ol with
    | some ex =>
        left
        by_cases hge : M.ge (calculateGCost cur (updateNodeHeight cubes nb))
            ex.gCost = true <;> simp [hge]
    | none => right; rfl

theorem foldl_process_length (M : CostModel) (grid : Grid) (cubes : List Cube)
    (cur : Node) (goal : Point3D) :
    ∀ (nbs : List Node) (ol : List Node),
      (nbs.foldl (fun acc nb => processNeighborNode M grid cubes nb cur acc goal)
        ol).length ≤ ol.length + nbs.length := by
  intro nbs
  induction nbs with
  | nil => intro ol; simp
  | cons nb t ih =>
      intro ol
      simp only [List.foldl_cons, List.length_cons]
      rcases processNeighborNode_cases M grid cubes nb cur ol goal with h | h
      · rw [h]
        calc _ ≤ ol.length + t.length := ih _
          _ ≤ ol.length + (t.length + 1) := by omega
      · rw [h]
        calc _ ≤ (ol ++ [updateNeighborNode (updateNodeHeight cubes nb) cur
              (calculateGCost cur (updateNodeHeight cubes nb)) goal]).length +
              t.length := ih _
          _ ≤ ol.length + (t.length + 1) := by
            simp only [List.length_append, List.length_singleton]
            omega

theorem foldl_process_mem (M : CostModel) (grid : Grid) (cubes : List Cube)
    (cur : Node) (goal : Point3D) :
    ∀ (nbs : List Node) (ol : List Node) (x : Node),
      x ∈ nbs.foldl (fun acc nb => processNeighborNode M grid cubes nb cur acc goal)
        ol →
      x ∈ ol ∨ ∃ nb ∈ nbs, x.position = nb.position ∧ rootPos x = rootPos cur := by
  intro nbs
  induction nbs with
  | nil => intro ol x hx; exact Or.inl hx
  | cons nb t ih =>
      intro ol x hx
      simp only [List.foldl_cons] at hx
      rcases ih _ x hx with hin | ⟨nb', hnb', hprops⟩
      · rcases processNeighborNode_cases M grid cubes nb cur ol goal with h | h
        · rw [h] at hin
          exact Or.inl hin
        · rw [h, List.mem_append] at hin
          rcases hin with hin | hin
          · exact Or.inl hin
          · simp only [List.mem_singleton] at hin
            subst hin
            exact Or.inr ⟨nb, List.mem_cons_self nb t,
              pushed_node_position cubes nb cur _ goal,
              rootPos_updateNeighborNode _ _ _ _⟩
      · exact Or.inr ⟨nb', List.mem_cons_of_mem nb hnb', hprops⟩

theorem getNeighborNodes_mem (grid : Grid) (cur : Node) (nb : Node)
    (h : nb ∈ getNeighborNodes grid cur) :
    nb.position ∈ getNeighborPositions grid cur.position := by
  unfold getNeighborNodes at h
  rw [List.mem_map] at h
  obtain ⟨np, hnp, heq⟩ := h
  subst heq
  rw [newNode_position]
  exact hnp

theorem getNeighborNodes_length (grid : Grid) (cur : Node) :
    (getNeighborNodes grid cur).length ≤ 8 := by
  unfold getNeighborNodes
  rw [List.length_map]
  exact getNeighborPositions_length_le grid cur.position

theorem searchLoop_ne_none (M : CostModel) (grid : Grid) (cubes : List Cube)
    (goal s : Point3D) (recalc : Bool) (hs : isValidTilePosition s grid = true) :
    ∀ (fuel : ℕ) (ol cl : List Node) (cn : Node),
      (∀ n ∈ ol, PosOK grid s n.position) →
      (∀ n ∈ cl, PosOK grid s n.position) →
      (cl.map fun n => encodeP s n.position).Nodup →
      ol.length + 9 * (boundCells grid - cl.length) < fuel →
      searchLoop M grid cubes goal recalc fuel ol cl cn ≠ none := by
  intro fuel
  induction fuel with
  | zero =>
      intro ol cl cn _ _ _ hm
      exact absurd hm (Nat.not_lt_zero _)
  | succ fuel ih =>
      intro ol cl cn hol hcl hnd hm
      cases hpop : popMin M.lt ol with
      | none => simp [searchLoop, hpop]
      | some pr =>
          obtain ⟨cur, rest⟩ := pr
          have hcur : cur ∈ ol := popMin_mem _ _ _ _ hpop
          have hrest : ∀ x ∈ rest, x ∈ ol := popMin_sub _ _ _ _ hpop
          have hlen : rest.length + 1 = ol.length := popMin_length _ _ _ _ hpop
          by_cases hclosed : isInClosedList cur cl = true
          · simp only [searchLoop, hpop, hclosed, if_true]
            exact ih rest cl cn (fun n hn => hol n (hrest n hn)) hcl hnd (by omega)
          · simp only [Bool.not_eq_true] at hclosed
            have hcurOK : PosOK grid s cur.position := hol cur hcur
            have hcur'pos : (updateNodeHeight cubes cur).position = cur.position :=
              updateNodeHeight_position cubes cur
            by_cases hgoal :
                equalsB (updateNodeHeight cubes cur).position goal = true
            · simp only [searchLoop, hpop, hclosed, Bool.false_eq_true, if_false,
                hgoal, if_true]
              simp
            · -- the closed list grows by the current node
              have hcl' : ∀ n ∈ cl ++ [updateNodeHeight cubes cur],
                  PosOK grid s n.position := by
                intro n hn
                rw [List.mem_append] at hn
                rcases hn with hn | hn
                · exact hcl n hn
                · simp only [List.mem_singleton] at hn
                  subst hn
                  rw [hcur'pos]
                  exact hcurOK
              have hnd' : ((cl ++ [updateNodeHeight cubes cur]).map
                  fun n => encodeP s n.position).Nodup := by
                rw [List.map_append, List.nodup_append]
                refine ⟨hnd, List.nodup_singleton _, ?_⟩
                intro e he he2
                simp only [List.map_cons, List.map_nil, List.mem_singleton] at he2
                rw [List.mem_map] at he
                obtain ⟨m, hm2, hme⟩ := he
                have hmOK : PosOK grid s m.position := hcl m hm2
                have : m.position = (updateNodeHeight cubes cur).position := by
                  apply encodeP_inj grid s m.position _ hmOK
                  · rw [hcur'pos]
                    exact hcurOK
                  · rw [hme, he2]
                rw [hcur'pos] at this
                have hrefl : equalsB m.position cur.position = true := by
                  rw [this]
                  obtain ⟨ha, hb, hz⟩ := hcurOK.shape
                  exact equalsB_refl_of_shape cur.position ha hb hz
                have : isInClosedList cur cl = true := by
                  unfold isInClosedList
                  rw [List.any_eq_true]
                  exact ⟨m, hm2, hrefl⟩
                rw [this] at hclosed
                exact absurd hclosed (by simp)
              have hclB : (cl ++ [updateNodeHeight cubes cur]).length ≤
                  boundCells grid :=
                closed_length_le grid s _ hs hcl' hnd'
              have holB : ∀ n ∈ (getNeighborNodes grid
                  (updateNodeHeight cubes cur)).foldl
                  (fun acc nb => processNeighborNode M grid cubes nb
                    (updateNodeHeight cubes cur) acc goal) rest,
                  PosOK grid s n.position := by
                intro n hn
                rcases foldl_process_mem M grid cubes (updateNodeHeight cubes cur)
                    goal _ rest n hn with hin | ⟨nb, hnb, hpos, _⟩
                · exact hol n (hrest n hin)
                · have := getNeighborNodes_mem grid (updateNodeHeight cubes cur)
                    nb hnb
                  rw [hcur'pos] at this
                  rw [hpos]
                  exact PosOK_neighbor grid s cur.position nb.position hcurOK this
              have hlenB : ((getNeighborNodes grid (updateNodeHeight cubes cur)).foldl
                  (fun acc nb => processNeighborNode M grid cubes nb
                    (updateNodeHeight cubes cur) acc goal) rest).length ≤
                  rest.length + 8 := by
                calc _ ≤ rest.length + (getNeighborNodes grid
                      (updateNodeHeight cubes cur)).length :=
                      foldl_process_length M grid cubes _ goal _ rest
                  _ ≤ rest.length + 8 := by
                      have := getNeighborNodes_length grid (updateNodeHeight cubes cur)
                      omega
              simp only [searchLoop, hpop, hclosed, Bool.false_eq_true, if_false,
                hgoal]
              apply ih _ _ _ holB hcl' hnd'
              have hclB2 : cl.length + 1 ≤ boundCells grid := by
                rw [List.length_append, List.length_singleton] at hclB
                exact hclB
              rw [List.length_append, List.length_singleton]
              omega

theorem searchLoop_recalc_some (M : CostModel) (grid : Grid) (cubes : List Cube)
    (goal : Point3D) :
    ∀ (fuel : ℕ) (ol cl : List Node) (cn : Node) (r : Option (List Point3D)),
      searchLoop M grid cubes goal true fuel ol cl cn = some r →
      ∃ p, r = some p ∧ p ≠ [] := by
  intro fuel
  induction fuel with
  | zero => intro ol cl cn r h; simp [searchLoop] at h
  | succ fuel ih =>
      intro ol cl cn r h
      cases hpop : popMin M.lt ol with
      | none =>
          simp only [searchLoop, hpop, if_true] at h
          refine ⟨reconstructPath cn, ?_, reconstructPath_ne_nil cn⟩
          injection h with h2
          rw [← h2]
      | some pr =>
          obtain ⟨cur, rest⟩ := pr
          by_cases hclosed : isInClosedList cur cl = true
          · simp only [searchLoop, hpop, hclosed, if_true] at h
            exact ih _ _ _ _ h
          · simp only [Bool.not_eq_true] at hclosed
            by_cases hgoal :
                equalsB (updateNodeHeight cubes cur).position goal = true
            · simp only [searchLoop, hpop, hclosed, Bool.false_eq_true, if_false,
                hgoal, if_true] at h
              refine ⟨reconstructPath (updateNodeHeight cubes cur), ?_,
                reconstructPath_ne_nil _⟩
              injection h with h2
              rw [← h2]
            · simp only [searchLoop, hpop, hclosed, Bool.false_eq_true, if_false,
                hgoal] at h
              exact ih _ _ _ _ h

theorem searchLoop_success (M : CostModel) (grid : Grid) (cubes : List Cube)
    (goal s : Point3D) :
    ∀ (fuel : ℕ) (ol cl : List Node) (cn : Node) (p : List Point3D),
      (∀ n ∈ ol, rootPos n = s) →
      searchLoop M grid cubes goal false fuel ol cl cn = some (some p) →
      ∃ cur : Node, p = reconstructPath cur ∧ equalsB cur.position goal = true ∧
        rootPos cur = s := by
  intro fuel
  induction fuel with
  | zero => intro ol cl cn p _ h; simp [searchLoop] at h
  | succ fuel ih =>
      intro ol cl cn p hol h
      cases hpop : popMin M.lt ol with
      | none => simp only [searchLoop, hpop, if_false] at h; simp at h
      | some pr =>
          obtain ⟨cur, rest⟩ := pr
          have hcur : cur ∈ ol := popMin_mem _ _ _ _ hpop
          have hrest : ∀ x ∈ rest, x ∈ ol := popMin_sub _ _ _ _ hpop
          by_cases hclosed : isInClosedList cur cl = true
          · simp only [searchLoop, hpop, hclosed, if_true] at h
            exact ih _ _ _ _ (fun n hn => hol n (hrest n hn)) h
          · simp only [Bool.not_eq_true] at hclosed
            by_cases hgoal :
                equalsB (updateNodeHeight cubes cur).position goal = true
            · simp only [searchLoop, hpop, hclosed, Bool.false_eq_true, if_false,
                hgoal, if_true] at h
              refine ⟨updateNodeHeight cubes cur, ?_, hgoal, ?_⟩
              · injection h with h2
                injection h2 with h3
                rw [← h3]
              · rw [rootPos_updateNodeHeight]
                exact hol cur hcur
            · simp only [searchLoop, hpop, hclosed, Bool.false_eq_true, if_false,
                hgoal] at h
              apply ih _ _ _ _ ?_ h
              intro n hn
              rcases foldl_process_mem M grid cubes (updateNodeHeight cubes cur)
                  goal _ rest n hn with hin | ⟨nb, _, _, hroot⟩
              · exact hol n (hrest n hin)
              · rw [hroot, rootPos_updateNodeHeight]
                exact hol cur hcur

theorem createStartNode_position (s g : Point3D) :
    (createStartNode s g).position = s := rfl

theorem rootPos_createStartNode (s g : Point3D) :
    rootPos (createStartNode s g) = s := rfl

theorem validateInput_parts (grid : Grid) (s g : Point3D)
    (h : validateInput grid s g = true) :
    isValidTilePosition s grid = true ∧ isValidTilePosition g grid = true ∧
      equalsB s g = false := by
  unfold validateInput at h
  simp only [Bool.and_eq_true, Bool.not_eq_true'] at h
  exact ⟨h.1.1, h.1.2, h.2⟩

/-- C9: every `findPath` call runs to completion: with the fuel bound
computed from the grid (each position enters the closed set at most
once, the positions the search can reach form a finite set, and each
processing step pushes at most eight open-set entries), the search loop
always reaches a result — the fuel is never exhausted, for every grid,
cube set, endpoint pair and comparison model. -/
theorem findPath_terminates (M : CostModel) (grid : Grid) (cubes : List Cube)
    (s g : Point3D) (rec : Bool) :
    findPathFuel M grid cubes s g rec (fuelBound grid) ≠ none := by
  unfold findPathFuel
  by_cases hv : validateInput grid s g = true
  · simp only [hv, if_true]
    have hvs : isValidTilePosition s grid = true := (validateInput_parts grid s g hv).1
    apply searchLoop_ne_none M grid cubes g s rec hvs (fuelBound grid)
      [createStartNode s g] [] (createStartNode s g)
    · intro n hn
      simp only [List.mem_singleton] at hn
      subst hn
      rw [createStartNode_position]
      obtain ⟨a, b, hax, hby, _, _, _, _, _⟩ := valid_extract s grid hvs
      refine ⟨hvs, ⟨0, ?_⟩, ⟨0, ?_⟩⟩
      · rw [hax]; simp [jsSub, jsNeg, jsAdd]
      · rw [hby]; simp [jsSub, jsNeg, jsAdd]
    · intro n hn
      simp at hn
    · simp
    · unfold fuelBound
      simp only [List.length_singleton, List.length_nil, Nat.sub_zero]
      omega
  · simp [hv]

/-- C1: once the start and goal pass validation, `findPath` with
`isRecalculating = true` never returns `null`: whether the goal is
reached or the open set is exhausted (in which case the path to the
tracked closest node is reconstructed), the result is a non-empty
sequence of positions — for every comparison model, grid and cube set. -/
theorem findPath_recalculating_never_none (M : CostModel) (grid : Grid)
    (cubes : List Cube) (s g : Point3D)
    (hv : validateInput grid s g = true) :
    ∃ p, findPath M grid cubes s g true = some p ∧ p ≠ [] := by
  have hvs : isValidTilePosition s grid = true := (validateInput_parts grid s g hv).1
  have hne : searchLoop M grid cubes g true (fuelBound grid)
      [createStartNode s g] [] (createStartNode s g) ≠ none := by
    apply searchLoop_ne_none M grid cubes g s true hvs
    · intro n hn
      simp only [List.mem_singleton] at hn
      subst hn
      rw [createStartNode_position]
      obtain ⟨a, b, hax, hby, _, _, _, _, _⟩ := valid_extract s grid hvs
      refine ⟨hvs, ⟨0, ?_⟩, ⟨0, ?_⟩⟩
      · rw [hax]; simp [jsSub, jsNeg, jsAdd]
      · rw [hby]; simp [jsSub, jsNeg, jsAdd]
    · intro n hn
      simp at hn
    · simp
    · unfold fuelBound
      simp only [List.length_singleton, List.length_nil, Nat.sub_zero]
      omega
  obtain ⟨r, hr⟩ := Option.ne_none_iff_exists'.mp hne
  obtain ⟨p, hp, hnp⟩ := searchLoop_recalc_some M grid cubes g (fuelBound grid)
    [createStartNode s g] [] (createStartNode s g) r hr
  refine ⟨p, ?_, hnp⟩
  unfold findPath findPathFuel
  rw [hv]
  simp only [if_true]
  rw [hr, hp]

/-- Witness for C1 at a concrete input: in the grid `[[0, -1, 0]]` the
goal `(0,2,0)` is walled off from the start `(0,0,0)` by the absent cell
`(0,1)`, yet validation passes, so the recalculating call must return a
non-empty best-effort path. -/
theorem findPath_recalculating_never_none_witness :
    validateInput ([[0, -1, 0]] : Grid) ⟨.num 0, .num 0, .num 0⟩
      ⟨.num 0, .num 2, .num 0⟩ = true ∧
    ∃ p, findPath ⟨fun _ _ => false, fun _ _ => false⟩ ([[0, -1, 0]] : Grid) []
      ⟨.num 0, .num 0, .num 0⟩ ⟨.num 0, .num 2, .num 0⟩ true = some p ∧ p ≠ [] :=
  ⟨by decide,
    findPath_recalculating_never_none ⟨fun _ _ => false, fun _ _ => false⟩
      ([[0, -1, 0]] : Grid) [] ⟨.num 0, .num 0, .num 0⟩ ⟨.num 0, .num 2, .num 0⟩
      (by decide)⟩

/-- C8: reconstruction follows the parent chain back to the node whose
parent is none — the start node — and reverses it, so a successful
(non-recalculating) `findPath` returns a sequence whose first element is
the start position and whose last element equals (under the code's
`===` equality) the goal position. -/
theorem findPath_success_endpoints (M : CostModel) (grid : Grid)
    (cubes : List Cube) (s g : Point3D) (p : List Point3D)
    (h : findPath M grid cubes s g false = some p) :
    p.head? = some s ∧ ∃ q, p.getLast? = some q ∧ equalsB q g = true := by
  unfold findPath at h
  cases hf : findPathFuel M grid cubes s g false (fuelBound grid) with
  | none => rw [hf] at h; exact absurd h (by simp)
  | some r =>
      rw [hf] at h
      subst h
      unfold findPathFuel at hf
      by_cases hv : validateInput grid s g = true
      · rw [hv] at hf
        simp only [if_true] at hf
        obtain ⟨cur, hp, hgoal, hroot⟩ :=
          searchLoop_success M grid cubes g s (fuelBound grid)
            [createStartNode s g] [] (createStartNode s g) p
            (by
              intro n hn
              simp only [List.mem_singleton] at hn
              subst hn
              exact rootPos_createStartNode s g) hf
        subst hp
        refine ⟨?_, cur.position, ?_, hgoal⟩
        · rw [reconstructPath_head?, hroot]
        · exact reconstructPath_getLast? cur
      · rw [if_neg hv] at hf
        injection hf with hf2
        exact absurd hf2.symm (by simp)

/-- Witness for C8 at a concrete input: on the grid `[[0, 0]]` the
search from `(0,0,0)` to `(0,1,0)` succeeds with the two-cell path. -/
theorem findPath_success_endpoints_witness :
    findPath ⟨fun _ _ => false, fun _ _ => false⟩ ([[0, 0]] : Grid) []
      ⟨.num 0, .num 0, .num 0⟩ ⟨.num 0, .num 1, .num 0⟩ false =
      some [⟨.num 0, .num 0, .num 0⟩, ⟨.num 0, .num 1, .num 0⟩] ∧
    ([⟨.num 0, .num 0, .num 0⟩, ⟨.num 0, .num 1, .num 0⟩] :
        List Point3D).head? = some ⟨.num 0, .num 0, .num 0⟩ ∧
    ∃ q, ([⟨.num 0, .num 0, .num 0⟩, ⟨.num 0, .num 1, .num 0⟩] :
        List Point3D).getLast? = some q ∧
      equalsB q ⟨.num 0, .num 1, .num 0⟩ = true :=
  ⟨by decide,
    findPath_success_endpoints ⟨fun _ _ => false, fun _ _ => false⟩
      ([[0, 0]] : Grid) [] ⟨.num 0, .num 0, .num 0⟩ ⟨.num 0, .num 1, .num 0⟩
      [⟨.num 0, .num 0, .num 0⟩, ⟨.num 0, .num 1, .num 0⟩] (by decide)⟩

end IsoRoom
